import Mathlib

/- Verification of the LendingLibrary operation layer (addBook, findBooks,
   checkoutBook, returnBook) of the lending-library repository.

   The operations act on an explicit document-store state holding the
   `books` and `loans` collections.  The embedding mirrors the source:
   `findOne` is `List.find?` over the collection in insertion (natural)
   order, `insertOne` appends, `updateOne` with a `$inc` modifier rewrites
   the first matching document, `deleteOne` removes the first matching
   document (`List.eraseP`), and a `find().sort().skip().limit()` chain is
   filter, stable sort, drop, and a limit where — as in the underlying
   MongoDB driver — a limit of 0 means "no limit".  Copy counters are
   embedded as `Int` (JavaScript numbers go negative on decrement). -/

namespace LendingLib

/-- A validated `addBook` request (the zod `Book` schema's output type):
`nCopies` is optional there, so it is an `Option Int` here. -/
structure Book where
  isbn : String
  title : String
  authors : List String
  pages : Int
  year : Int
  publisher : String
  nCopies : Option Int
deriving Repr, DecidableEq

/-- A stored book record: the inserted document `{...book, nCopies}` always
carries a concrete `nCopies` count. -/
structure XBook where
  isbn : String
  title : String
  authors : List String
  pages : Int
  year : Int
  publisher : String
  nCopies : Int
deriving Repr, DecidableEq

/-- A document of the books collection: the payload plus the
storage-assigned internal identifier (`_id`). -/
structure BookDoc where
  sid : Nat
  xb : XBook
deriving Repr, DecidableEq

/-- A loan document, as inserted by `checkoutBook`
(`{patronId, isbn, checkedOutAt: new Date()}`). -/
structure Loan where
  patronId : String
  isbn : String
  checkedOutAt : Nat
deriving Repr, DecidableEq

/-- The persistent state: the books and loans collections in natural
(insertion) order, plus the next internal identifier. -/
structure Store where
  books : List BookDoc
  loans : List Loan
  nextSid : Nat
deriving Repr, DecidableEq

def emptyStore : Store := { books := [], loans := [], nextSid := 0 }

/-- The `Errors.Result` type of the source: success with a payload, or an
error carrying a message and an optional error code (`errResult` called
without a code leaves the code unset). -/
inductive Result (α : Type) where
  | ok (v : α)
  | err (msg : String) (code : Option String)
deriving Repr, DecidableEq

/-- A field of a raw `checkoutBook`/`returnBook` request: absent, a string,
or present with some non-string value. -/
inductive RawField where
  | absent
  | str (s : String)
  | nonString
deriving Repr, DecidableEq

/-- The guard `!x || typeof x !== "string"` of `checkoutBook`/`returnBook`:
it lets a value through exactly when it is a non-empty string (the empty
string is falsy, and any non-string fails the `typeof` test whatever its
truthiness). -/
def fieldStr : RawField → Option String
  | RawField.str s => if s = "" then none else some s
  | _ => none

/-- The filter `{isbn}` used by `findOne`/`updateOne` on the books
collection. -/
def isbnMatch (isbn : String) (d : BookDoc) : Bool := d.xb.isbn == isbn

/-- The filter `{patronId, isbn}` used on the loans collection. -/
def loanMatch (isbn patronId : String) (l : Loan) : Bool :=
  l.patronId == patronId && l.isbn == isbn

/-- The effect of `updateOne(filter, {$inc: {nCopies: k}})` on one
document. -/
def incCopies (k : Int) (d : BookDoc) : BookDoc :=
  { d with xb := { d.xb with nCopies := d.xb.nCopies + k } }

/-- `updateOne` semantics: rewrite the first document matching the
filter, leaving the rest of the collection unchanged. -/
def updateFirst (p : α → Bool) (f : α → α) : List α → List α
  | [] => []
  | x :: xs => if p x then f x :: xs else x :: updateFirst p f xs

/-- The requested copy count `book.nCopies || 1` of `addBook` (JavaScript
`||`: `undefined` and `0` both fall back to 1). -/
def reqCopies (b : Book) : Int :=
  match b.nCopies with
  | none => 1
  | some k => if k = 0 then 1 else k

/-- The inserted document `{...book, nCopies}` of `addBook`. -/
def toXBook (b : Book) (n : Int) : XBook :=
  { isbn := b.isbn, title := b.title, authors := b.authors, pages := b.pages,
    year := b.year, publisher := b.publisher, nCopies := n }

/-- JavaScript `Array.prototype.toString`, used by `addBook` to compare the
`authors` arrays: the elements joined with commas. -/
def joinAuthors (authors : List String) : String := String.intercalate "," authors

def inconsistentMsg : String :=
  "Inconsistent book data: The existing book data does not match the provided details."

/-- `addBook` on a request that passed the zod `Book` validation
(lines 82–123 of the source): look up the isbn; if present, compare title,
`authors.toString()`, year and publisher, failing BAD_REQ on any mismatch,
else `$inc` the stored `nCopies`; if absent, insert `{...book, nCopies}`.
Either way the success payload is `book` — the validated request itself. -/
def addBook (b : Book) (s : Store) : Result Book × Store :=
  let n := reqCopies b
  match s.books.find? (isbnMatch b.isbn) with
  | some ex =>
    if ex.xb.title ≠ b.title ∨ joinAuthors ex.xb.authors ≠ joinAuthors b.authors ∨
        ex.xb.year ≠ b.year ∨ ex.xb.publisher ≠ b.publisher then
      (Result.err inconsistentMsg (some "BAD_REQ"), s)
    else
      (Result.ok b, { s with books := updateFirst (isbnMatch b.isbn) (incCopies n) s.books })
  | none =>
    (Result.ok b,
      { s with books := s.books ++ [{ sid := s.nextSid, xb := toXBook b n }],
               nextSid := s.nextSid + 1 })

/-- A word character of the JavaScript regex class `\w`:
`[A-Za-z0-9_]`. -/
def isWordChar (c : Char) : Bool := c.isAlphanum || c == '_'

/-- Accumulating scanner behind `wordRuns`: `cur` holds the current run of
word characters in reverse. -/
def wordRunsAux : List Char → List Char → List (List Char)
  | [], cur => if cur.isEmpty then [] else [cur.reverse]
  | c :: cs, cur =>
    if isWordChar c then wordRunsAux cs (c :: cur)
    else if cur.isEmpty then wordRunsAux cs [] else cur.reverse :: wordRunsAux cs []

/-- The maximal runs of word characters of a string, in order. -/
def wordRuns (l : List Char) : List (List Char) := wordRunsAux l []

/-- `search.match(/\w{2,}/g)`: the maximal runs of word characters of
length at least 2, as strings. -/
def searchWords (s : String) : List String :=
  ((wordRuns s.toList).filter fun r => 2 ≤ r.length).map fun r => String.mk r

/-- Case folding used to embed the `i` regex flag: lowercase every
character. -/
def lowerChars (s : String) : List Char := s.toList.map Char.toLower

/-- `startsWithChars hay needle`: `needle` is an initial segment of
`hay`. -/
def startsWithChars : List Char → List Char → Bool
  | _, [] => true
  | [], _ :: _ => false
  | y :: ys, x :: xs => (x == y) && startsWithChars ys xs

/-- `hasSub hay needle`: `needle` occurs contiguously somewhere in
`hay`. -/
def hasSub : List Char → List Char → Bool
  | [], needle => needle.isEmpty
  | y :: ys, needle => startsWithChars (y :: ys) needle || hasSub ys needle

/-- `new RegExp(word, "i")` tested against a string, for `word` a run of
word characters (no regex metacharacters): case-insensitive substring. -/
def ciSubstr (w hay : String) : Bool := hasSub (lowerChars hay) (lowerChars w)

/-- One search condition `{$or: [{title: /word/i}, {authors: /word/i}]}`:
a regex on an array field matches when some element matches. -/
def wordHits (w : String) (xb : XBook) : Bool :=
  ciSubstr w xb.title || xb.authors.any fun a => ciSubstr w a

/-- The `$and` of the per-word conditions. -/
def docMatches (ws : List String) (d : BookDoc) : Bool :=
  ws.all fun w => wordHits w d.xb

/-- The set of books matching a word list, in natural order. -/
def matchingBooks (s : Store) (ws : List String) : List BookDoc :=
  s.books.filter (docMatches ws)

/-- The sort key of `.sort({title: 1})`: titles compared as their
character sequences (binary comparison of the default collation). -/
def leChars : List Char → List Char → Bool
  | [], _ => true
  | _ :: _, [] => false
  | x :: xs, y :: ys => if x = y then leChars xs ys else decide (x < y)

def titleLe (a b : BookDoc) : Prop :=
  leChars a.xb.title.toList b.xb.title.toList = true

instance : DecidableRel titleLe := fun a b =>
  inferInstanceAs (Decidable (leChars a.xb.title.toList b.xb.title.toList = true))

/-- `.sort({title: 1})` as a stable ascending sort by title. -/
def sortByTitle (l : List BookDoc) : List BookDoc := List.insertionSort titleLe l

def DEFAULT_COUNT : Nat := 5

/-- MongoDB `cursor.limit`: a limit of 0 is equivalent to setting no
limit. -/
def mongoLimit (count : Nat) (l : List α) : List α :=
  if count = 0 then l else l.take count

/-- A validated `findBooks` request (the zod `Find` schema's output type,
minus the regex constraint on `search`). -/
structure FindReq where
  search : String
  index : Option Nat
  count : Option Nat
deriving Repr, DecidableEq

/-- `findBooks` (lines 144–187 of the source) on a type-correct request.
The zod gate (`search` must match `/\w{2,}/`) and the re-check on
`search.match(/\w{2,}/g)` both fail exactly when `searchWords` is empty,
and both surface as BAD_REQ (the in-source re-check's message is used).
On success: filter by the word conditions, sort ascending by title, skip
`index` (default 0), limit to `count` (default 5), and strip the internal
`_id` from each returned document. -/
def findBooks (req : FindReq) (s : Store) : Result (List XBook) :=
  let ws := searchWords req.search
  if ws.isEmpty then Result.err "No valid words in search" (some "BAD_REQ")
  else
    Result.ok
      ((mongoLimit (req.count.getD DEFAULT_COUNT)
          ((sortByTitle (matchingBooks s ws)).drop (req.index.getD 0))).map
        fun d => d.xb)

/-- `checkoutBook` (lines 199–254 of the source): guard the two raw
fields, then check book existence, availability and loan absence in order,
each failure leaving the store unchanged; on success insert
`{patronId, isbn, checkedOutAt: now}` into loans and `$inc` the book's
`nCopies` by -1. -/
def checkoutBook (isbnF patronF : RawField) (now : Nat) (s : Store) :
    Result Unit × Store :=
  match fieldStr patronF with
  | none => (Result.err "Missing or invalid patronId" (some "MISSING"), s)
  | some patronId =>
    match fieldStr isbnF with
    | none => (Result.err "Missing or invalid isbn" (some "MISSING"), s)
    | some isbn =>
      match s.books.find? (isbnMatch isbn) with
      | none => (Result.err "The book does not exist in the library" (some "BAD_REQ"), s)
      | some bd =>
        if bd.xb.nCopies ≤ 0 then
          (Result.err "No copies of the book are available for checkout" (some "BAD_REQ"), s)
        else
          match s.loans.find? (loanMatch isbn patronId) with
          | some _ =>
            (Result.err "The patron already has this book checked out" (some "BAD_REQ"), s)
          | none =>
            (Result.ok (),
              { s with
                loans := s.loans ++ [{ patronId := patronId, isbn := isbn, checkedOutAt := now }],
                books := updateFirst (isbnMatch isbn) (incCopies (-1)) s.books })

/-- `returnBook` (lines 265–306 of the source), with a failure oracle:
`failAt = some k` makes the k-th storage call of the `try` block (0:
`findOne` books, 1: `findOne` loans, 2: `deleteOne` loans, 3: `updateOne`
books) throw before taking effect, landing in the `catch` — which returns
`Errors.errResult("TODO")`, an error with no code. -/
def returnBookF (failAt : Option Nat) (isbnF patronF : RawField) (s : Store) :
    Result Unit × Store :=
  match fieldStr patronF with
  | none => (Result.err "Missing or invalid patronId" (some "MISSING"), s)
  | some patronId =>
    match fieldStr isbnF with
    | none => (Result.err "Missing or invalid isbn" (some "MISSING"), s)
    | some isbn =>
      if failAt = some 0 then (Result.err "TODO" none, s) else
      match s.books.find? (isbnMatch isbn) with
      | none => (Result.err "The book does not exist in the library" (some "BAD_REQ"), s)
      | some _ =>
        if failAt = some 1 then (Result.err "TODO" none, s) else
        match s.loans.find? (loanMatch isbn patronId) with
        | none =>
          (Result.err "The patron does not have this book checked out" (some "BAD_REQ"), s)
        | some _ =>
          if failAt = some 2 then (Result.err "TODO" none, s) else
          let s2 := { s with loans := s.loans.eraseP (loanMatch isbn patronId) }
          if failAt = some 3 then (Result.err "TODO" none, s2) else
          (Result.ok (), { s2 with books := updateFirst (isbnMatch isbn) (incCopies 1) s2.books })

/-- `returnBook` as invoked when no storage call fails. -/
def returnBook (isbnF patronF : RawField) (s : Store) : Result Unit × Store :=
  returnBookF none isbnF patronF s

/-- The zod `Book` schema's constraint on the optional `nCopies` field: a
positive integer when present.  This is the only part of the `addBook`
validation that the store invariant depends on. -/
def copiesOk (b : Book) : Prop := 0 < b.nCopies.getD 1

/-- The number of open loans recorded for an `(isbn, patronId)` pair. -/
def loanCount (isbn patronId : String) (ls : List Loan) : Nat :=
  (ls.filter (loanMatch isbn patronId)).length

/-- The store invariant of the data model: no negative copy counter, and
at most one open loan per `(isbn, patronId)` pair. -/
def StoreInv (s : Store) : Prop :=
  (∀ d ∈ s.books, 0 ≤ d.xb.nCopies) ∧ ∀ i p, loanCount i p s.loans ≤ 1

/-- The stores reachable from the empty store by sequences of the four
operations.  `addBook` steps carry requests that passed validation (only
the positivity of `nCopies` is needed); `findBooks` does not write, so a
`seek` step leaves the store as is; `checkoutBook`/`returnBook` take
arbitrary raw fields, since their guards are in the operations
themselves. -/
inductive Reaches : Store → Prop
  | empty : Reaches emptyStore
  | add {s : Store} {b : Book} (h : Reaches s) (hb : copiesOk b) :
      Reaches (addBook b s).2
  | seek {s : Store} (req : FindReq) (h : Reaches s) : Reaches s
  | checkout {s : Store} (isbnF patronF : RawField) (now : Nat) (h : Reaches s) :
      Reaches (checkoutBook isbnF patronF now s).2
  | giveBack {s : Store} (isbnF patronF : RawField) (h : Reaches s) :
      Reaches (returnBook isbnF patronF s).2

/-- Test fixture: a valid book request with `nCopies` omitted. -/
def bookA : Book :=
  { isbn := "123-456-789-0", title := "JS in Depth", authors := ["Hints"],
    pages := 100, year := 2000, publisher := "P", nCopies := none }

/-- Test fixture: the store after adding `bookA` to the empty store. -/
def storeA : Store := (addBook bookA emptyStore).2

/-- Test fixture: `storeA` after patron "joe" checks out `bookA`. -/
def storeLoanA : Store :=
  (checkoutBook (RawField.str "123-456-789-0") (RawField.str "joe") 7 storeA).2

/-- Test fixture: like `bookA` but with a single author containing a
comma. -/
def bookJoined : Book := { bookA with authors := ["Hin,ts"] }

/-- Test fixture: the store holding one copy of `bookJoined`. -/
def storeJoined : Store := (addBook bookJoined emptyStore).2

/-- Test fixture: like `bookA` but with the author split in two at the
comma; its `authors` differs from `bookJoined`'s as a sequence, while the
comma-joined renderings coincide. -/
def bookSplit : Book := { bookA with authors := ["Hin", "ts"] }


instance (b : Book) : Decidable (copiesOk b) :=
  inferInstanceAs (Decidable (0 < b.nCopies.getD 1))

/-- A successful `find?` splits the list at the first match. -/
theorem find?_decomp {α : Type} {p : α → Bool} {l : List α} {x : α}
    (h : l.find? p = some x) :
    ∃ l₁ l₂, l = l₁ ++ x :: l₂ ∧ ∀ y ∈ l₁, p y = false := by
  induction l with
  | nil => cases h
  | cons a t ih =>
    cases hpa : p a with
    | true =>
      rw [List.find?_cons_of_pos _ hpa] at h
      cases h
      exact ⟨[], t, rfl, by simp⟩
    | false =>
      rw [List.find?_cons_of_neg _ (by simp [hpa])] at h
      obtain ⟨l₁, l₂, rfl, hcl⟩ := ih h
      refine ⟨a :: l₁, l₂, rfl, ?_⟩
      intro y hy
      rcases List.mem_cons.mp hy with rfl | hy
      · exact hpa
      · exact hcl y hy

/-- `updateFirst` rewrites exactly the first match of a decomposed
list. -/
theorem updateFirst_split {α : Type} (p : α → Bool) (f : α → α)
    (l₁ : List α) (x : α) (l₂ : List α)
    (h₁ : ∀ y ∈ l₁, p y = false) (h₂ : p x = true) :
    updateFirst p f (l₁ ++ x :: l₂) = l₁ ++ f x :: l₂ := by
  induction l₁ with
  | nil => simp [updateFirst, h₂]
  | cons a t ih =>
    have ha : p a = false := h₁ a (by simp)
    simp only [List.cons_append, updateFirst, ha, Bool.false_eq_true, if_false,
      List.cons.injEq, true_and]
    exact ih fun y hy => h₁ y (by simp [hy])

/-- `find?` returns the distinguished match of a decomposed list. -/
theorem find?_split {α : Type} (p : α → Bool) (l₁ : List α) (x : α) (l₂ : List α)
    (h₁ : ∀ y ∈ l₁, p y = false) (h₂ : p x = true) :
    (l₁ ++ x :: l₂).find? p = some x := by
  rw [List.find?_append]
  have hnone : l₁.find? p = none :=
    List.find?_eq_none.mpr fun y hy => by simp [h₁ y hy]
  rw [hnone, List.find?_cons_of_pos _ h₂]
  rfl

theorem reqCopies_pos {b : Book} (h : copiesOk b) : 0 < reqCopies b := by
  unfold copiesOk at h
  unfold reqCopies
  cases hb : b.nCopies with
  | none => norm_num
  | some k =>
    rw [hb] at h
    simp only [Option.getD_some] at h
    by_cases hk : k = 0
    · simp [hk]
    · simpa [hk] using h

theorem isbnMatch_incCopies (isbn : String) (k : Int) (d : BookDoc) :
    isbnMatch isbn (incCopies k d) = isbnMatch isbn d := rfl

/-- Characterization of `addBook` when the isbn is new: insert with the
defaulted count. -/
theorem addBook_insert {b : Book} {s : Store}
    (h : s.books.find? (isbnMatch b.isbn) = none) :
    addBook b s =
      (Result.ok b,
        { books := s.books ++ [{ sid := s.nextSid, xb := toXBook b (reqCopies b) }],
          loans := s.loans, nextSid := s.nextSid + 1 }) := by
  simp only [addBook, h]

/-- Characterization of `addBook` on an inconsistent re-add. -/
theorem addBook_mismatch {b : Book} {s : Store} {ex : BookDoc}
    (h : s.books.find? (isbnMatch b.isbn) = some ex)
    (hne : ex.xb.title ≠ b.title ∨ joinAuthors ex.xb.authors ≠ joinAuthors b.authors ∨
      ex.xb.year ≠ b.year ∨ ex.xb.publisher ≠ b.publisher) :
    addBook b s = (Result.err inconsistentMsg (some "BAD_REQ"), s) := by
  simp only [addBook, h, if_pos hne]

/-- Characterization of `addBook` on a consistent re-add: increment the
stored count of the first matching document. -/
theorem addBook_increment {b : Book} {s : Store} {ex : BookDoc}
    (h : s.books.find? (isbnMatch b.isbn) = some ex)
    (hne : ¬(ex.xb.title ≠ b.title ∨ joinAuthors ex.xb.authors ≠ joinAuthors b.authors ∨
      ex.xb.year ≠ b.year ∨ ex.xb.publisher ≠ b.publisher)) :
    addBook b s =
      (Result.ok b,
        { books := updateFirst (isbnMatch b.isbn) (incCopies (reqCopies b)) s.books,
          loans := s.loans, nextSid := s.nextSid }) := by
  simp only [addBook, h, if_neg hne]

/-- Characterization of `checkoutBook` when the patron guard fails. -/
theorem checkoutBook_guard_patron {patronF : RawField} (isbnF : RawField)
    (now : Nat) (s : Store) (h : fieldStr patronF = none) :
    checkoutBook isbnF patronF now s =
      (Result.err "Missing or invalid patronId" (some "MISSING"), s) := by
  simp only [checkoutBook, h]

/-- Characterization of `checkoutBook` when the isbn guard fails. -/
theorem checkoutBook_guard_isbn {isbnF patronF : RawField} {patronId : String}
    (now : Nat) (s : Store)
    (hp : fieldStr patronF = some patronId) (h : fieldStr isbnF = none) :
    checkoutBook isbnF patronF now s =
      (Result.err "Missing or invalid isbn" (some "MISSING"), s) := by
  simp only [checkoutBook, h, hp]

/-- Characterization of `checkoutBook` when no book has the isbn. -/
theorem checkoutBook_no_book {isbnF patronF : RawField} {patronId isbn : String}
    (now : Nat) (s : Store)
    (hp : fieldStr patronF = some patronId) (hi : fieldStr isbnF = some isbn)
    (hb : s.books.find? (isbnMatch isbn) = none) :
    checkoutBook isbnF patronF now s =
      (Result.err "The book does not exist in the library" (some "BAD_REQ"), s) := by
  simp only [checkoutBook, hp, hi, hb]

/-- Characterization of `checkoutBook` when the book is out of copies. -/
theorem checkoutBook_no_copies {isbnF patronF : RawField} {patronId isbn : String}
    {bd : BookDoc} (now : Nat) (s : Store)
    (hp : fieldStr patronF = some patronId) (hi : fieldStr isbnF = some isbn)
    (hb : s.books.find? (isbnMatch isbn) = some bd) (h0 : bd.xb.nCopies ≤ 0) :
    checkoutBook isbnF patronF now s =
      (Result.err "No copies of the book are available for checkout" (some "BAD_REQ"), s) := by
  simp only [checkoutBook, hp, hi, hb, if_pos h0]

/-- Characterization of `checkoutBook` when the patron already holds the
book. -/
theorem checkoutBook_already {isbnF patronF : RawField} {patronId isbn : String}
    {bd : BookDoc} {ln : Loan} (now : Nat) (s : Store)
    (hp : fieldStr patronF = some patronId) (hi : fieldStr isbnF = some isbn)
    (hb : s.books.find? (isbnMatch isbn) = some bd) (h0 : ¬bd.xb.nCopies ≤ 0)
    (hl : s.loans.find? (loanMatch isbn patronId) = some ln) :
    checkoutBook isbnF patronF now s =
      (Result.err "The patron already has this book checked out" (some "BAD_REQ"), s) := by
  simp only [checkoutBook, hp, hi, hb, if_neg h0, hl]

/-- Characterization of a successful `checkoutBook`: insert the loan and
decrement the first matching book document. -/
theorem checkoutBook_success {isbnF patronF : RawField} {patronId isbn : String}
    {bd : BookDoc} (now : Nat) (s : Store)
    (hp : fieldStr patronF = some patronId) (hi : fieldStr isbnF = some isbn)
    (hb : s.books.find? (isbnMatch isbn) = some bd) (h0 : ¬bd.xb.nCopies ≤ 0)
    (hl : s.loans.find? (loanMatch isbn patronId) = none) :
    checkoutBook isbnF patronF now s =
      (Result.ok (),
        { books := updateFirst (isbnMatch isbn) (incCopies (-1)) s.books,
          loans := s.loans ++ [{ patronId := patronId, isbn := isbn, checkedOutAt := now }],
          nextSid := s.nextSid }) := by
  simp only [checkoutBook, hp, hi, hb, if_neg h0, hl]

/-- Characterization of `returnBook` when the patron guard fails. -/
theorem returnBook_guard_patron {patronF : RawField} (isbnF : RawField)
    (s : Store) (h : fieldStr patronF = none) :
    returnBook isbnF patronF s =
      (Result.err "Missing or invalid patronId" (some "MISSING"), s) := by
  simp only [returnBook, returnBookF, h]

/-- Characterization of `returnBook` when the isbn guard fails. -/
theorem returnBook_guard_isbn {isbnF patronF : RawField} {patronId : String}
    (s : Store)
    (hp : fieldStr patronF = some patronId) (h : fieldStr isbnF = none) :
    returnBook isbnF patronF s =
      (Result.err "Missing or invalid isbn" (some "MISSING"), s) := by
  simp only [returnBook, returnBookF, hp, h]

/-- Characterization of `returnBook` when no book has the isbn. -/
theorem returnBook_no_book {isbnF patronF : RawField} {patronId isbn : String}
    (s : Store)
    (hp : fieldStr patronF = some patronId) (hi : fieldStr isbnF = some isbn)
    (hb : s.books.find? (isbnMatch isbn) = none) :
    returnBook isbnF patronF s =
      (Result.err "The book does not exist in the library" (some "BAD_REQ"), s) := by
  simp only [returnBook, returnBookF, hp, hi, hb]
  simp

/-- Characterization of `returnBook` when the pair has no open loan. -/
theorem returnBook_no_loan {isbnF patronF : RawField} {patronId isbn : String}
    {bd : BookDoc} (s : Store)
    (hp : fieldStr patronF = some patronId) (hi : fieldStr isbnF = some isbn)
    (hb : s.books.find? (isbnMatch isbn) = some bd)
    (hl : s.loans.find? (loanMatch isbn patronId) = none) :
    returnBook isbnF patronF s =
      (Result.err "The patron does not have this book checked out" (some "BAD_REQ"), s) := by
  simp only [returnBook, returnBookF, hp, hi, hb, hl]
  simp

/-- Characterization of a successful `returnBook`: erase the loan and
increment the first matching book document. -/
theorem returnBook_success {isbnF patronF : RawField} {patronId isbn : String}
    {bd : BookDoc} {ln : Loan} (s : Store)
    (hp : fieldStr patronF = some patronId) (hi : fieldStr isbnF = some isbn)
    (hb : s.books.find? (isbnMatch isbn) = some bd)
    (hl : s.loans.find? (loanMatch isbn patronId) = some ln) :
    returnBook isbnF patronF s =
      (Result.ok (),
        { books := updateFirst (isbnMatch isbn) (incCopies 1) s.books,
          loans := s.loans.eraseP (loanMatch isbn patronId),
          nextSid := s.nextSid }) := by
  simp only [returnBook, returnBookF, hp, hi, hb, hl]
  simp

/-- `addBook` with a positive (or omitted) requested count preserves the
store invariant. -/
theorem storeInv_addBook {b : Book} {s : Store} (hb : copiesOk b)
    (h : StoreInv s) : StoreInv (addBook b s).2 := by
  obtain ⟨hbooks, hloans⟩ := h
  cases hfind : s.books.find? (isbnMatch b.isbn) with
  | none =>
    rw [addBook_insert hfind]
    refine ⟨?_, hloans⟩
    intro d hd
    simp only [List.mem_append, List.mem_singleton] at hd
    rcases hd with hd | rfl
    · exact hbooks d hd
    · have := reqCopies_pos hb
      simp only [toXBook]
      omega
  | some ex =>
    by_cases hne : ex.xb.title ≠ b.title ∨ joinAuthors ex.xb.authors ≠ joinAuthors b.authors ∨
        ex.xb.year ≠ b.year ∨ ex.xb.publisher ≠ b.publisher
    · rw [addBook_mismatch hfind hne]
      exact ⟨hbooks, hloans⟩
    · rw [addBook_increment hfind hne]
      refine ⟨?_, hloans⟩
      obtain ⟨l₁, l₂, hl, hcl⟩ := find?_decomp hfind
      have hpx := List.find?_some hfind
      rw [hl, updateFirst_split _ _ _ _ _ hcl hpx]
      intro d hd
      have hexmem : ex ∈ s.books := List.mem_of_find?_eq_some hfind
      simp only [List.mem_append, List.mem_cons] at hd
      rcases hd with hd | rfl | hd
      · exact hbooks d (by rw [hl]; simp [hd])
      · have h0 : 0 ≤ ex.xb.nCopies := hbooks ex hexmem
        have h1 := reqCopies_pos hb
        simp only [incCopies]
        omega
      · exact hbooks d (by rw [hl]; simp [hd])

/-- `checkoutBook` preserves the store invariant: the decremented counter
was checked positive, and the inserted loan was checked absent. -/
theorem storeInv_checkout (isbnF patronF : RawField) (now : Nat) {s : Store}
    (h : StoreInv s) : StoreInv (checkoutBook isbnF patronF now s).2 := by
  obtain ⟨hbooks, hloans⟩ := h
  cases hpat : fieldStr patronF with
  | none => rw [checkoutBook_guard_patron isbnF now s hpat]; exact ⟨hbooks, hloans⟩
  | some patronId =>
  cases hisbn : fieldStr isbnF with
  | none => rw [checkoutBook_guard_isbn now s hpat hisbn]; exact ⟨hbooks, hloans⟩
  | some isbn =>
  cases hfind : s.books.find? (isbnMatch isbn) with
  | none => rw [checkoutBook_no_book now s hpat hisbn hfind]; exact ⟨hbooks, hloans⟩
  | some bd =>
  by_cases h0 : bd.xb.nCopies ≤ 0
  · rw [checkoutBook_no_copies now s hpat hisbn hfind h0]; exact ⟨hbooks, hloans⟩
  cases hln : s.loans.find? (loanMatch isbn patronId) with
  | some ln => rw [checkoutBook_already now s hpat hisbn hfind h0 hln]; exact ⟨hbooks, hloans⟩
  | none =>
  rw [checkoutBook_success now s hpat hisbn hfind h0 hln]
  constructor
  · obtain ⟨l₁, l₂, hl, hcl⟩ := find?_decomp hfind
    have hpx := List.find?_some hfind
    rw [hl, updateFirst_split _ _ _ _ _ hcl hpx]
    intro d hd
    simp only [List.mem_append, List.mem_cons] at hd
    rcases hd with hd | rfl | hd
    · exact hbooks d (by rw [hl]; simp [hd])
    · simp only [incCopies]
      omega
    · exact hbooks d (by rw [hl]; simp [hd])
  · intro i p
    unfold loanCount
    rw [List.filter_append]
    by_cases hm : loanMatch i p { patronId := patronId, isbn := isbn, checkedOutAt := now } = true
    · have hip : patronId = p ∧ isbn = i := by
        simpa [loanMatch] using hm
      obtain ⟨rfl, rfl⟩ := hip
      have hfe : s.loans.filter (loanMatch isbn patronId) = [] := by
        rw [List.filter_eq_nil_iff]
        intro x hx
        exact List.find?_eq_none.mp hln x hx
      rw [hfe]
      simp [List.filter, hm]
    · have hf1 : List.filter (loanMatch i p)
          [{ patronId := patronId, isbn := isbn, checkedOutAt := now }] = [] := by
        simp only [List.filter_cons, hm, if_false]
        rfl
      rw [hf1, List.append_nil]
      exact hloans i p

/-- `returnBook` preserves the store invariant: incrementing a counter and
erasing a loan can only keep counters non-negative and shrink loan
counts. -/
theorem storeInv_giveBack (isbnF patronF : RawField) {s : Store}
    (h : StoreInv s) : StoreInv (returnBook isbnF patronF s).2 := by
  obtain ⟨hbooks, hloans⟩ := h
  cases hpat : fieldStr patronF with
  | none => rw [returnBook_guard_patron isbnF s hpat]; exact ⟨hbooks, hloans⟩
  | some patronId =>
  cases hisbn : fieldStr isbnF with
  | none => rw [returnBook_guard_isbn s hpat hisbn]; exact ⟨hbooks, hloans⟩
  | some isbn =>
  cases hfind : s.books.find? (isbnMatch isbn) with
  | none => rw [returnBook_no_book s hpat hisbn hfind]; exact ⟨hbooks, hloans⟩
  | some bd =>
  cases hln : s.loans.find? (loanMatch isbn patronId) with
  | none => rw [returnBook_no_loan s hpat hisbn hfind hln]; exact ⟨hbooks, hloans⟩
  | some ln =>
  rw [returnBook_success s hpat hisbn hfind hln]
  constructor
  · obtain ⟨l₁, l₂, hl, hcl⟩ := find?_decomp hfind
    have hpx := List.find?_some hfind
    rw [hl, updateFirst_split _ _ _ _ _ hcl hpx]
    intro d hd
    have hbdmem : bd ∈ s.books := List.mem_of_find?_eq_some hfind
    simp only [List.mem_append, List.mem_cons] at hd
    rcases hd with hd | rfl | hd
    · exact hbooks d (by rw [hl]; simp [hd])
    · have h0 : 0 ≤ bd.xb.nCopies := hbooks bd hbdmem
      simp only [incCopies]
      omega
    · exact hbooks d (by rw [hl]; simp [hd])
  · intro i p
    unfold loanCount
    have hs : ((s.loans.eraseP (loanMatch isbn patronId)).filter (loanMatch i p)).Sublist
        (s.loans.filter (loanMatch i p)) :=
      (List.eraseP_sublist s.loans).filter _
    exact le_trans hs.length_le (hloans i p)

/-- C1: starting from the empty store, every store reachable by sequences
of addBook, findBooks, checkoutBook and returnBook operations keeps every
recorded `nCopies` non-negative and holds at most one open loan per
`(isbn, patronId)` pair. -/
theorem c1_reachable_store_invariant {s : Store} (h : Reaches s) :
    (∀ d ∈ s.books, 0 ≤ d.xb.nCopies) ∧ ∀ i p, loanCount i p s.loans ≤ 1 := by
  induction h with
  | empty =>
    refine ⟨by simp [emptyStore], ?_⟩
    intro i p
    simp [loanCount, emptyStore]
  | add _ hb ih => exact storeInv_addBook hb ih
  | seek _ _ ih => exact ih
  | checkout isbnF patronF now _ ih => exact storeInv_checkout isbnF patronF now ih
  | giveBack isbnF patronF _ ih => exact storeInv_giveBack isbnF patronF ih

/-- Witness for C1 at a concrete reachable store: add `bookA`, then check
it out. -/
theorem c1_reachable_store_invariant_w :
    (∀ d ∈ storeLoanA.books, 0 ≤ d.xb.nCopies) ∧
      ∀ i p, loanCount i p storeLoanA.loans ≤ 1 :=
  c1_reachable_store_invariant
    (Reaches.checkout (RawField.str "123-456-789-0") (RawField.str "joe") 7
      (Reaches.add Reaches.empty (by decide)))


theorem fieldStr_str {s : String} (h : s ≠ "") :
    fieldStr (RawField.str s) = some s := by
  simp [fieldStr, h]

/-- C2: for string, non-empty isbn and patronId, `checkoutBook` checks its
three preconditions in order with distinct BAD_REQ failures, each leaving
the store unchanged; on success it inserts a loan stamped with the current
time and decrements exactly the found book document's `nCopies` by 1. -/
theorem c2_checkout_preconditions (isbn patronId : String) (now : Nat) (s : Store)
    (hi : isbn ≠ "") (hp : patronId ≠ "") :
    (s.books.find? (isbnMatch isbn) = none →
      checkoutBook (RawField.str isbn) (RawField.str patronId) now s =
        (Result.err "The book does not exist in the library" (some "BAD_REQ"), s)) ∧
    (∀ bd, s.books.find? (isbnMatch isbn) = some bd → bd.xb.nCopies ≤ 0 →
      checkoutBook (RawField.str isbn) (RawField.str patronId) now s =
        (Result.err "No copies of the book are available for checkout" (some "BAD_REQ"), s)) ∧
    (∀ bd ln, s.books.find? (isbnMatch isbn) = some bd → 0 < bd.xb.nCopies →
      s.loans.find? (loanMatch isbn patronId) = some ln →
      checkoutBook (RawField.str isbn) (RawField.str patronId) now s =
        (Result.err "The patron already has this book checked out" (some "BAD_REQ"), s)) ∧
    (∀ l₁ bd l₂, s.books = l₁ ++ bd :: l₂ → (∀ d ∈ l₁, isbnMatch isbn d = false) →
      isbnMatch isbn bd = true → 0 < bd.xb.nCopies →
      s.loans.find? (loanMatch isbn patronId) = none →
      checkoutBook (RawField.str isbn) (RawField.str patronId) now s =
        (Result.ok (),
          { books := l₁ ++ incCopies (-1) bd :: l₂,
            loans := s.loans ++ [{ patronId := patronId, isbn := isbn, checkedOutAt := now }],
            nextSid := s.nextSid })) := by
  have hps := fieldStr_str hp
  have his := fieldStr_str hi
  refine ⟨?_, ?_, ?_, ?_⟩
  · intro hb
    exact checkoutBook_no_book now s hps his hb
  · intro bd hb h0
    exact checkoutBook_no_copies now s hps his hb h0
  · intro bd ln hb h0 hl
    exact checkoutBook_already now s hps his hb (not_le.mpr h0) hl
  · intro l₁ bd l₂ hsplit hcl hpx h0 hl
    have hb : s.books.find? (isbnMatch isbn) = some bd := by
      rw [hsplit]
      exact find?_split _ _ _ _ hcl hpx
    rw [checkoutBook_success now s hps his hb (not_le.mpr h0) hl, hsplit,
      updateFirst_split _ _ _ _ _ hcl hpx]

/-- Witness for C2: checking `bookA` out of `storeA` succeeds with the
expected loan and decrement. -/
theorem c2_checkout_preconditions_w :
    checkoutBook (RawField.str "123-456-789-0") (RawField.str "joe") 7 storeA =
      (Result.ok (),
        { books := [incCopies (-1) { sid := 0, xb := toXBook bookA 1 }],
          loans := [{ patronId := "joe", isbn := "123-456-789-0", checkedOutAt := 7 }],
          nextSid := 1 }) :=
  (c2_checkout_preconditions "123-456-789-0" "joe" 7 storeA (by decide) (by decide)).2.2.2
    [] { sid := 0, xb := toXBook bookA 1 } [] (by decide) (by decide) (by decide)
    (by decide) (by decide)

theorem incCopies_cancel (d : BookDoc) : incCopies 1 (incCopies (-1) d) = d := by
  simp [incCopies]

theorem loanMatch_self (isbn patronId : String) (now : Nat) :
    loanMatch isbn patronId { patronId := patronId, isbn := isbn, checkedOutAt := now } = true := by
  simp [loanMatch]

/-- C3: a successful checkout followed by a return of the same pair
restores the store exactly (deleting the loan and restoring the copy
counter); a return for a pair with no open loan fails BAD_REQ and leaves
the store unchanged. -/
theorem c3_return_after_checkout (isbn patronId : String) (now : Nat) (s s' : Store) :
    (checkoutBook (RawField.str isbn) (RawField.str patronId) now s = (Result.ok (), s') →
      returnBook (RawField.str isbn) (RawField.str patronId) s' = (Result.ok (), s)) ∧
    (isbn ≠ "" → patronId ≠ "" → s.loans.find? (loanMatch isbn patronId) = none →
      ∃ msg, returnBook (RawField.str isbn) (RawField.str patronId) s =
        (Result.err msg (some "BAD_REQ"), s)) := by
  constructor
  · intro hck
    by_cases hp : patronId = ""
    · rw [checkoutBook_guard_patron _ now s (by simp [fieldStr, hp])] at hck
      simp at hck
    by_cases hi : isbn = ""
    · rw [checkoutBook_guard_isbn now s (fieldStr_str hp) (by simp [fieldStr, hi])] at hck
      simp at hck
    have hps := fieldStr_str hp
    have his := fieldStr_str hi
    cases hfind : s.books.find? (isbnMatch isbn) with
    | none =>
      rw [checkoutBook_no_book now s hps his hfind] at hck
      simp at hck
    | some bd =>
    by_cases h0 : bd.xb.nCopies ≤ 0
    · rw [checkoutBook_no_copies now s hps his hfind h0] at hck
      simp at hck
    cases hln : s.loans.find? (loanMatch isbn patronId) with
    | some ln =>
      rw [checkoutBook_already now s hps his hfind h0 hln] at hck
      simp at hck
    | none =>
    rw [checkoutBook_success now s hps his hfind h0 hln] at hck
    simp only [Prod.mk.injEq, true_and] at hck
    subst hck
    obtain ⟨l₁, l₂, hl, hcl⟩ := find?_decomp hfind
    have hpx := List.find?_some hfind
    have hpx' : isbnMatch isbn (incCopies (-1) bd) = true := hpx
    have hbooks' : updateFirst (isbnMatch isbn) (incCopies (-1)) s.books =
        l₁ ++ incCopies (-1) bd :: l₂ := by
      rw [hl, updateFirst_split _ _ _ _ _ hcl hpx]
    have hfind' : (updateFirst (isbnMatch isbn) (incCopies (-1)) s.books).find?
        (isbnMatch isbn) = some (incCopies (-1) bd) := by
      rw [hbooks']
      exact find?_split _ _ _ _ hcl hpx'
    have hclean : ∀ y ∈ s.loans, loanMatch isbn patronId y = false := by
      intro y hy
      have := List.find?_eq_none.mp hln y hy
      simpa using this
    have hfindln : (s.loans ++
        [({ patronId := patronId, isbn := isbn, checkedOutAt := now } : Loan)]).find?
        (loanMatch isbn patronId) =
        some ({ patronId := patronId, isbn := isbn, checkedOutAt := now } : Loan) := by
      have := find?_split (loanMatch isbn patronId) s.loans
        { patronId := patronId, isbn := isbn, checkedOutAt := now } [] hclean
        (loanMatch_self isbn patronId now)
      simpa using this
    rw [returnBook_success _ hps his hfind' hfindln]
    have herase : (s.loans ++
        [({ patronId := patronId, isbn := isbn, checkedOutAt := now } : Loan)]).eraseP
        (loanMatch isbn patronId) = s.loans := by
      rw [List.eraseP_append_right _ (by
        intro b hb
        simp [hclean b hb])]
      simp [List.eraseP_cons, loanMatch_self isbn patronId now]
    have hupdate : updateFirst (isbnMatch isbn) (incCopies 1)
        (updateFirst (isbnMatch isbn) (incCopies (-1)) s.books) = s.books := by
      rw [hbooks', updateFirst_split _ _ _ _ _ hcl hpx', incCopies_cancel, hl]
    rw [hupdate, herase]
  · intro hi hp hln
    cases hfind : s.books.find? (isbnMatch isbn) with
    | none =>
      exact ⟨"The book does not exist in the library",
        returnBook_no_book s (fieldStr_str hp) (fieldStr_str hi) hfind⟩
    | some bd =>
      exact ⟨"The patron does not have this book checked out",
        returnBook_no_loan s (fieldStr_str hp) (fieldStr_str hi) hfind hln⟩

/-- Witness for C3: returning `bookA` after the fixture checkout restores
`storeA`, and returning it without a loan fails BAD_REQ. -/
theorem c3_return_after_checkout_w :
    returnBook (RawField.str "123-456-789-0") (RawField.str "joe") storeLoanA =
      (Result.ok (), storeA) ∧
    ∃ msg, returnBook (RawField.str "123-456-789-0") (RawField.str "joe") storeA =
      (Result.err msg (some "BAD_REQ"), storeA) :=
  ⟨(c3_return_after_checkout "123-456-789-0" "joe" 7 storeA storeLoanA).1 (by decide),
    (c3_return_after_checkout "123-456-789-0" "joe" 7 storeA storeA).2
      (by decide) (by decide) (by decide)⟩

/-- C4 (amended): a re-add with matching isbn fails BAD_REQ with the fixed
inconsistency message when the title, comma-joined authors string, year,
or publisher differs from the stored record, leaving the store unchanged;
when all four comparisons agree, exactly the first matching document's
`nCopies` is incremented by the requested count. -/
theorem c4_amended_readd (b : Book) (s : Store) (ex : BookDoc)
    (hex : s.books.find? (isbnMatch b.isbn) = some ex) :
    ((ex.xb.title ≠ b.title ∨ joinAuthors ex.xb.authors ≠ joinAuthors b.authors ∨
        ex.xb.year ≠ b.year ∨ ex.xb.publisher ≠ b.publisher) →
      addBook b s = (Result.err inconsistentMsg (some "BAD_REQ"), s)) ∧
    (ex.xb.title = b.title → joinAuthors ex.xb.authors = joinAuthors b.authors →
      ex.xb.year = b.year → ex.xb.publisher = b.publisher →
      ∀ l₁ l₂, s.books = l₁ ++ ex :: l₂ → (∀ d ∈ l₁, isbnMatch b.isbn d = false) →
        addBook b s =
          (Result.ok b,
            { books := l₁ ++ incCopies (reqCopies b) ex :: l₂,
              loans := s.loans, nextSid := s.nextSid })) := by
  constructor
  · intro hne
    exact addBook_mismatch hex hne
  · intro h1 h2 h3 h4 l₁ l₂ hsplit hcl
    have hne : ¬(ex.xb.title ≠ b.title ∨ joinAuthors ex.xb.authors ≠ joinAuthors b.authors ∨
        ex.xb.year ≠ b.year ∨ ex.xb.publisher ≠ b.publisher) := by
      simp [h1, h2, h3, h4]
    rw [addBook_increment hex hne, hsplit,
      updateFirst_split _ _ _ _ _ hcl (List.find?_some hex)]

/-- Witness for C4: a consistent re-add of `bookA` with three more copies
increments the stored count. -/
theorem c4_amended_readd_w :
    addBook { bookA with nCopies := some 3 } storeA =
      (Result.ok { bookA with nCopies := some 3 },
        { books := [incCopies 3 { sid := 0, xb := toXBook bookA 1 }],
          loans := [], nextSid := 1 }) :=
  (c4_amended_readd { bookA with nCopies := some 3 } storeA
      { sid := 0, xb := toXBook bookA 1 } (by decide)).2
    rfl rfl rfl rfl [] [] (by decide) (by decide)

/-- C4 counterexample: the stored book's single author "Hin,ts" and the
request's author pair ["Hin", "ts"] differ order-sensitively as
sequences, yet `addBook` succeeds and increments the stored `nCopies`
instead of failing BAD_REQ naming "authors" — the comparison happens on
the comma-joined renderings, which coincide. -/
theorem c4_counterexample :
    (addBook bookSplit storeJoined).1 = Result.ok bookSplit ∧
    bookSplit.authors ≠ (toXBook bookJoined 1).authors ∧
    (addBook bookSplit storeJoined).2.books =
      [{ sid := 0, xb := { toXBook bookJoined 1 with nCopies := 2 } }] := by
  exact ⟨by decide, by decide, by decide⟩

/-- C5 (amended): the success payload of `addBook` is the validated
request record itself — its `nCopies` field as given in the request — not
the stored record; on a first add the store receives the record with the
defaulted requested count. -/
theorem c5_amended_result_payload (b : Book) (s : Store) :
    (∀ v s', addBook b s = (Result.ok v, s') → v = b) ∧
    (s.books.find? (isbnMatch b.isbn) = none →
      addBook b s =
        (Result.ok b,
          { books := s.books ++ [{ sid := s.nextSid, xb := toXBook b (reqCopies b) }],
            loans := s.loans, nextSid := s.nextSid + 1 })) := by
  constructor
  · intro v s' h
    cases hfind : s.books.find? (isbnMatch b.isbn) with
    | none =>
      rw [addBook_insert hfind] at h
      simp only [Prod.mk.injEq, Result.ok.injEq] at h
      exact h.1.symm
    | some ex =>
      by_cases hne : ex.xb.title ≠ b.title ∨ joinAuthors ex.xb.authors ≠ joinAuthors b.authors ∨
          ex.xb.year ≠ b.year ∨ ex.xb.publisher ≠ b.publisher
      · rw [addBook_mismatch hfind hne] at h
        simp at h
      · rw [addBook_increment hfind hne] at h
        simp only [Prod.mk.injEq, Result.ok.injEq] at h
        exact h.1.symm
  · exact addBook_insert

/-- Witness for C5: the first add of `bookA` into the empty store. -/
theorem c5_amended_result_payload_w :
    addBook bookA emptyStore =
      (Result.ok bookA,
        { books := [{ sid := 0, xb := toXBook bookA 1 }], loans := [], nextSid := 1 }) :=
  (c5_amended_result_payload bookA emptyStore).2 (by decide)

/-- C5 counterexample: `bookA` omits `nCopies`; the store records the
defaulted count 1, but the success payload is the request itself, whose
`nCopies` is absent — not the record as it exists in the store. -/
theorem c5_counterexample :
    (addBook bookA emptyStore).1 = Result.ok bookA ∧ bookA.nCopies = none ∧
    (addBook bookA emptyStore).2.books.map (fun d => d.xb.nCopies) = [1] := by
  exact ⟨by decide, by decide, by decide⟩

/-- Every run produced by the scanner is a non-empty list of word
characters (given that the accumulator holds only word characters). -/
theorem wordRunsAux_wordlike :
    ∀ (l cur : List Char), (∀ c ∈ cur, isWordChar c = true) →
      ∀ r ∈ wordRunsAux l cur, r ≠ [] ∧ ∀ c ∈ r, isWordChar c = true := by
  intro l
  induction l with
  | nil =>
    intro cur hcur r hr
    unfold wordRunsAux at hr
    cases hc : cur.isEmpty with
    | true => rw [hc] at hr; simp at hr
    | false =>
      rw [hc] at hr
      simp only [Bool.false_eq_true, if_false, List.mem_singleton] at hr
      subst hr
      constructor
      · simp only [ne_eq, List.reverse_eq_nil_iff]
        intro hnil
        rw [hnil] at hc
        simp at hc
      · intro c hcm
        exact hcur c (List.mem_reverse.mp hcm)
  | cons a t ih =>
    intro cur hcur r hr
    unfold wordRunsAux at hr
    by_cases hw : isWordChar a = true
    · rw [if_pos hw] at hr
      refine ih (a :: cur) ?_ r hr
      intro c hcm
      rcases List.mem_cons.mp hcm with rfl | hcm
      · exact hw
      · exact hcur c hcm
    · rw [if_neg hw] at hr
      cases hc : cur.isEmpty with
      | true =>
        rw [hc] at hr
        simp only [if_true] at hr
        exact ih [] (by simp) r hr
      | false =>
        rw [hc] at hr
        simp only [Bool.false_eq_true, if_false, List.mem_cons] at hr
        rcases hr with rfl | hr
        · constructor
          · simp only [ne_eq, List.reverse_eq_nil_iff]
            intro hnil
            rw [hnil] at hc
            simp at hc
          · intro c hcm
            exact hcur c (List.mem_reverse.mp hcm)
        · exact ih [] (by simp) r hr

/-- Every token of `searchWords` has length at least 2 and consists of
word characters. -/
theorem searchWords_wordlike (s : String) :
    ∀ w ∈ searchWords s, 2 ≤ w.length ∧ w.toList.all isWordChar = true := by
  intro w hw
  unfold searchWords at hw
  simp only [List.mem_map, List.mem_filter] at hw
  obtain ⟨r, ⟨hrmem, hrlen⟩, rfl⟩ := hw
  have h := wordRunsAux_wordlike s.toList [] (by simp) r hrmem
  constructor
  · exact of_decide_eq_true hrlen
  · simp only [List.all_eq_true]
    exact h.2

/-- C6: a `findBooks` request whose search string tokenizes to no word of
length at least 2 fails BAD_REQ; tokens are runs of word characters of
length at least 2; and a book is in the match set iff every token occurs
case-insensitively as a substring of the title or of some author entry
(OR across title/authors per token, AND across tokens). -/
theorem c6_find_matching (req : FindReq) (s : Store) :
    (searchWords req.search = [] →
      findBooks req s = Result.err "No valid words in search" (some "BAD_REQ")) ∧
    (∀ w ∈ searchWords req.search, 2 ≤ w.length ∧ w.toList.all isWordChar = true) ∧
    (∀ d, d ∈ matchingBooks s (searchWords req.search) ↔
      d ∈ s.books ∧ ∀ w ∈ searchWords req.search,
        ciSubstr w d.xb.title = true ∨ ∃ a ∈ d.xb.authors, ciSubstr w a = true) := by
  refine ⟨?_, searchWords_wordlike req.search, ?_⟩
  · intro h
    simp [findBooks, h]
  · intro d
    simp only [matchingBooks, List.mem_filter, docMatches, List.all_eq_true, wordHits,
      Bool.or_eq_true, List.any_eq_true]

/-- Witness for C6: a search with no token of length two fails BAD_REQ,
and the fixture book matches the two-token search "js hints". -/
theorem c6_find_matching_w :
    findBooks { search := "j<s h.i", index := none, count := none } storeA =
      Result.err "No valid words in search" (some "BAD_REQ") :=
  (c6_find_matching { search := "j<s h.i", index := none, count := none } storeA).1 (by decide)

theorem leChars_total : ∀ xs ys : List Char, leChars xs ys = true ∨ leChars ys xs = true := by
  intro xs
  induction xs with
  | nil => intro ys; left; rfl
  | cons x xs ih =>
    intro ys
    cases ys with
    | nil => right; rfl
    | cons y ys =>
      by_cases hxy : x = y
      · subst hxy
        rcases ih ys with h | h
        · left; simpa [leChars] using h
        · right; simpa [leChars] using h
      · rcases lt_or_gt_of_ne hxy with h | h
        · left; simp [leChars, hxy, h]
        · right; simp [leChars, Ne.symm hxy, h]

theorem leChars_trans : ∀ xs ys zs : List Char,
    leChars xs ys = true → leChars ys zs = true → leChars xs zs = true := by
  intro xs
  induction xs with
  | nil => intro ys zs h₁ h₂; rfl
  | cons x xs ih =>
    intro ys zs h₁ h₂
    cases ys with
    | nil => simp [leChars] at h₁
    | cons y ys =>
      cases zs with
      | nil => simp [leChars] at h₂
      | cons z zs =>
        by_cases hxy : x = y
        · subst hxy
          by_cases hyz : x = z
          · subst hyz
            simp only [leChars, if_pos rfl] at h₁ h₂ ⊢
            exact ih ys zs h₁ h₂
          · simp only [leChars, if_pos rfl] at h₁
            simp only [leChars, if_neg hyz] at h₂ ⊢
            exact h₂
        · by_cases hyz : y = z
          · subst hyz
            simp only [leChars, if_neg hxy] at h₁ ⊢
            exact h₁
          · simp only [leChars, if_neg hxy] at h₁
            simp only [leChars, if_neg hyz] at h₂
            have hlt : x < z := lt_trans (of_decide_eq_true h₁) (of_decide_eq_true h₂)
            simp only [leChars, if_neg (ne_of_lt hlt)]
            exact decide_eq_true hlt

instance : IsTotal BookDoc titleLe :=
  ⟨fun a b => leChars_total a.xb.title.toList b.xb.title.toList⟩

instance : IsTrans BookDoc titleLe :=
  ⟨fun a b c => leChars_trans a.xb.title.toList b.xb.title.toList c.xb.title.toList⟩

theorem mongoLimit_nil {α : Type} (c : Nat) : mongoLimit c ([] : List α) = [] := by
  unfold mongoLimit
  split <;> simp

/-- C7 (amended): on a tokenizable request `findBooks` never errs — the
result is the matching books sorted ascending by title, skipped by
`index` (default 0) and limited by `count` (default 5), where a positive
count takes the slice [index, index+count) but a count of 0 is passed to
the storage layer's limit, which treats 0 as "no limit" and returns every
match from `index` on; an empty match set yields a successful empty
list; the returned records carry only the book fields, no storage
identifier. -/
theorem c7_amended_pagination (req : FindReq) (s : Store)
    (hw : searchWords req.search ≠ []) :
    findBooks req s = Result.ok
      ((mongoLimit (req.count.getD DEFAULT_COUNT)
          ((sortByTitle (matchingBooks s (searchWords req.search))).drop
            (req.index.getD 0))).map fun d => d.xb) ∧
    (sortByTitle (matchingBooks s (searchWords req.search))).Perm
      (matchingBooks s (searchWords req.search)) ∧
    (sortByTitle (matchingBooks s (searchWords req.search))).Sorted titleLe ∧
    (matchingBooks s (searchWords req.search) = [] → findBooks req s = Result.ok []) ∧
    (∀ c, req.count = some c → c ≠ 0 →
      findBooks req s = Result.ok
        ((((sortByTitle (matchingBooks s (searchWords req.search))).drop
            (req.index.getD 0)).take c).map fun d => d.xb)) ∧
    (req.count = some 0 →
      findBooks req s = Result.ok
        (((sortByTitle (matchingBooks s (searchWords req.search))).drop
          (req.index.getD 0)).map fun d => d.xb)) := by
  have hne : (searchWords req.search).isEmpty = false := by
    cases hsw : searchWords req.search with
    | nil => exact absurd hsw hw
    | cons a t => rfl
  have h1 : findBooks req s = Result.ok
      ((mongoLimit (req.count.getD DEFAULT_COUNT)
        ((sortByTitle (matchingBooks s (searchWords req.search))).drop
          (req.index.getD 0))).map fun d => d.xb) := by
    simp only [findBooks, hne, Bool.false_eq_true, if_false]
  refine ⟨h1, List.perm_insertionSort titleLe _, List.sorted_insertionSort titleLe _,
    ?_, ?_, ?_⟩
  · intro hm
    rw [h1, hm]
    simp [sortByTitle, List.insertionSort, mongoLimit_nil]
  · intro c hc h0
    rw [h1, hc]
    simp [mongoLimit, h0]
  · intro hc
    rw [h1, hc]
    simp [mongoLimit]

/-- Witness for C7: a default-paginated search on the fixture store
returns the single matching book. -/
theorem c7_amended_pagination_w :
    findBooks { search := "depth", index := none, count := none } storeA =
      Result.ok [toXBook bookA 1] := by
  have h := (c7_amended_pagination { search := "depth", index := none, count := none }
    storeA (by decide)).1
  exact h

/-- C7 counterexample: with `count = 0` the storage limit of 0 means "no
limit", so the one matching book is returned — not zero books as the
claim states. -/
theorem c7_counterexample :
    findBooks { search := "depth", index := none, count := some 0 } storeA =
      Result.ok [toXBook bookA 1] ∧
    [toXBook bookA 1] ≠ ([] : List XBook) := by
  exact ⟨by decide, by decide⟩

/-- C8 (code behavior at the failing inputs): the hand-written guard of
`checkoutBook`/`returnBook` returns MISSING for an absent field (as the
claim says), but also MISSING — not BAD_TYPE — for a present non-string
field, and MISSING — not BAD_REQ — for a present empty-string field,
contradicting the operations' own documented error taxonomy. -/
theorem c8_guard_collapses_to_missing :
    (checkoutBook (RawField.str "123-456-789-0") RawField.nonString 7 storeA).1 =
      Result.err "Missing or invalid patronId" (some "MISSING") ∧
    (checkoutBook (RawField.str "123-456-789-0") (RawField.str "") 7 storeA).1 =
      Result.err "Missing or invalid patronId" (some "MISSING") ∧
    (returnBook RawField.absent (RawField.str "joe") storeA).1 =
      Result.err "Missing or invalid isbn" (some "MISSING") := by
  exact ⟨by decide, by decide, by decide⟩

/-- C9 (code behavior at the failing input): when the `deleteOne` storage
call of `returnBook` throws, the catch block returns
`errResult("TODO")` — an error whose code is unset, not the DB kind that
the other operations' catch blocks attach. -/
theorem c9_return_catch_lacks_db :
    returnBookF (some 2) (RawField.str "123-456-789-0") (RawField.str "joe") storeLoanA =
      (Result.err "TODO" none, storeLoanA) ∧
    (none : Option String) ≠ some "DB" := by
  exact ⟨by decide, by decide⟩

end LendingLib
